import Mathlib

/-!
Verification of the cluster bootstrap and membership coordinator
(`cmd/influxd/node.go`): the replicated-log (broker) join protocol, the
data-layer join protocol, the shutdown sequencing of `Node.Close`, the
idempotent listener closers, and the `ClusterURL` derivation.

The Go code is shallowly embedded: the external collaborators
(`raft.Log.Join/Initialize`, `influxdb.Server.Join/Initialize`, the close
behaviour of each owned handle, and the platform address parser) are
modelled as explicit oracle parameters, and each embedded function also
returns the list of observable events (join calls, initialize calls,
close attempts) it performs, in order, so that ordering and
at-most-once properties can be stated.
-/

namespace InfluxdNode

/-- A URL, kept abstract as its textual form. -/
abbrev URL := String

/-! ## Replicated-log (broker) join protocol: `openBroker` / `joinLog` -/

/-- Result of a `raft.Log.Join` call: `none` is success; `errInitialized`
is the distinguished `raft.ErrInitialized` sentinel; `other` is any other
error (carrying its message). -/
inductive LogJoinErr where
  | errInitialized
  | other (msg : String)
deriving DecidableEq, Repr

/-- Observable events of the log-layer bootstrap: a `l.Join(u)` call with
its result, or a `l.Initialize()` call with its result (`none` = success). -/
inductive LogEvent where
  | joinCall (u : URL) (res : Option LogJoinErr)
  | initCall (res : Option String)
deriving DecidableEq, Repr

/-- Terminal state of the log-layer bootstrap decision in `openBroker`:
`joined u` (log line "join: connected raft log to u"),
`alreadyInitialized u` (`raft.ErrInitialized` treated as success),
`selfInitialized` (log line "initialized broker"),
`fatalInit` (`log.Fatalf("initialize raft log: ...")`),
`fatalExhausted` (`log.Fatalf("join: failed to connect raft log to any specified server")`),
`alreadyMember` (log line "broker already member of cluster.  Using
existing state and ignoring join URLs"). -/
inductive BrokerOutcome where
  | joined (u : URL)
  | alreadyInitialized (u : URL)
  | selfInitialized
  | fatalInit (msg : String)
  | fatalExhausted
  | alreadyMember
deriving DecidableEq, Repr

/-- Embedding of `Node.joinLog`: attempt to join each broker URL until
successful.  `join` models `l.Join`.  Mirrors the Go loop: on
`raft.ErrInitialized` return immediately; on any other error log and try
the next URL; on success return; after the loop, `log.Fatalf`. -/
def joinLog (join : URL → Option LogJoinErr) : List URL → List LogEvent × BrokerOutcome
  | [] => ([], .fatalExhausted)
  | u :: us =>
    match join u with
    | some .errInitialized => ([.joinCall u (some .errInitialized)], .alreadyInitialized u)
    | some (.other m) =>
      let r := joinLog join us
      (.joinCall u (some (.other m)) :: r.1, r.2)
    | none => ([.joinCall u none], .joined u)

/-- Embedding of the bootstrap decision at the end of `Node.openBroker`
(after the broker and raft log have been opened): read the last log
`index`; if it is `0` and there are join URLs, run `joinLog`; if it is
`0` and there are none, call `l.Initialize()` (fatal on error); otherwise
the broker is already a member and join URLs are ignored.
`initialize` models the result of `l.Initialize()` (`none` = success). -/
def openBrokerJoin (index : Nat) (brokerURLs : List URL)
    (join : URL → Option LogJoinErr) (initRes : Option String) :
    List LogEvent × BrokerOutcome :=
  if index = 0 then
    if brokerURLs.length > 0 then
      joinLog join brokerURLs
    else
      match initRes with
      | some m => ([.initCall (some m)], .fatalInit m)
      | none => ([.initCall none], .selfInitialized)
  else
    ([], .alreadyMember)

/-- The URLs attempted by the recorded events, in order. -/
def attemptedURLs (es : List LogEvent) : List URL :=
  es.filterMap fun e =>
    match e with
    | .joinCall u _ => some u
    | .initCall _ => none

/-- `join u` failed with an ordinary (non-sentinel) error. -/
def otherFail (join : URL → Option LogJoinErr) (u : URL) : Prop :=
  ∃ m, join u = some (.other m)

/-! ## Data-layer join protocol: `openServer` / `joinOrInitializeServer` -/

/-- Result of a `Server.Join(u, joinURL)` call: `none` is success;
`errDataNodeNotFound` is the distinguished `influxdb.ErrDataNodeNotFound`
sentinel; `other` is any other error. -/
inductive DataJoinErr where
  | errDataNodeNotFound
  | other (msg : String)
deriving DecidableEq, Repr

/-- Observable events of the data-layer bootstrap: an `n.Join(&u, &joinURL)`
call against a peer with its result, or an `n.Initialize(u)` call with the
URL it was given and its result. -/
inductive DataEvent where
  | joinCall (peer : URL) (res : Option DataJoinErr)
  | initCall (u : URL) (res : Option String)
deriving DecidableEq, Repr

/-- Terminal state of the data-layer bootstrap decision:
`joined peer` (log line "join: connected data node to ..."),
`selfInitialized` (log line "initialized data node"),
`fatalInit` (`log.Fatalf("server initialization error...")`),
`fatalExhausted` (`log.Fatalf("join: failed to connect data node to any specified server")`),
`alreadyMember` (log line "data node already member of cluster. Using
existing state and ignoring join URLs"). -/
inductive ServerOutcome where
  | joined (peer : URL)
  | selfInitialized
  | fatalInit (msg : String)
  | fatalExhausted
  | alreadyMember
deriving DecidableEq, Repr

/-- Embedding of `if err := n.Initialize(u); err != nil { log.Fatalf(...) }`
followed by the "initialized data node" log line.  `dinit` models
`n.Initialize` applied to the local cluster URL `u`. -/
def initializeServer (u : URL) (dinit : URL → Option String) :
    List DataEvent × ServerOutcome :=
  match dinit u with
  | some m => ([.initCall u (some m)], .fatalInit m)
  | none => ([.initCall u none], .selfInitialized)

/-- The `for _, joinURL := range joinURLs` loop body of
`Node.joinOrInitializeServer`.  Returns the events of the attempts made and
`some` outcome when the loop returned inside its body, or `none` when the
loop ran to completion without returning. -/
def serverJoinLoop (u : URL) (join : URL → Option DataJoinErr)
    (dinit : URL → Option String) : List URL → List DataEvent × Option ServerOutcome
  | [] => ([], none)
  | joinURL :: rest =>
    match join joinURL with
    | some .errDataNodeNotFound =>
      -- No data nodes could be found to join.  We're the first.
      let r := initializeServer u dinit
      (.joinCall joinURL (some .errDataNodeNotFound) :: r.1, some r.2)
    | some (.other m) =>
      -- does not return so that the next joinURL can be tried
      let r := serverJoinLoop u join dinit rest
      (.joinCall joinURL (some (.other m)) :: r.1, r.2)
    | none => ([.joinCall joinURL none], some (.joined joinURL))

/-- Embedding of `Node.joinOrInitializeServer`: run the join loop over
`joinURLs`; if the loop falls through, self-initialize when `joinURLs`
is empty, otherwise `log.Fatalf` (exhaustion). `u` is the local cluster
URL passed by `openServer`. -/
def joinOrInitializeServer (u : URL) (join : URL → Option DataJoinErr)
    (dinit : URL → Option String) (joinURLs : List URL) :
    List DataEvent × ServerOutcome :=
  match serverJoinLoop u join dinit joinURLs with
  | (es, some out) => (es, out)
  | (es, none) =>
    if joinURLs.length = 0 then
      initializeServer u dinit
    else
      (es, .fatalExhausted)

/-- Embedding of the bootstrap decision at the end of `Node.openServer`
(after the data node has been opened): if the assigned identity
`n.ID()` is `0`, run `joinOrInitializeServer`; otherwise the data node is
already a member and join URLs are ignored. -/
def openServerJoin (id : Nat) (u : URL) (join : URL → Option DataJoinErr)
    (dinit : URL → Option String) (joinURLs : List URL) :
    List DataEvent × ServerOutcome :=
  if id = 0 then
    joinOrInitializeServer u join dinit joinURLs
  else
    ([], .alreadyMember)

/-- The peer URLs attempted by the recorded data-layer events, in order. -/
def attemptedPeers (es : List DataEvent) : List URL :=
  es.filterMap fun e =>
    match e with
    | .joinCall p _ => some p
    | .initCall _ _ => none

/-- `join p` failed with an ordinary (non-sentinel) error. -/
def dataOtherFail (join : URL → Option DataJoinErr) (p : URL) : Prop :=
  ∃ m, join p = some (.other m)

/-! ## Shutdown: `Node.Close` and the listener closers

Each owned handle is modelled by what its `Close()` call would return:
`Option String` (`none` = success).  An `Option (Option String)` field is
`none` when the Go field is `nil`.  `Node.Close` is embedded as a function
that also returns the ordered list of handles whose `Close()` it actually
invoked. -/

/-- The handle fields of `Node` relevant to `Close`, each recording the
result its `Close()` would return. -/
structure NodeHandles where
  clusterListener : Option (Option String)
  apiListener : Option (Option String)
  adminServer : Option (Option String)
  graphiteServers : List (Option String)
  openTSDBServer : Option (Option String)
  dataNode : Option (Option String)
  raftLog : Option (Option String)
  broker : Option (Option String)
deriving DecidableEq, Repr

/-- The subsystems closed by `Node.Close`, labelling the close attempts. -/
inductive Subsys where
  | clusterL
  | apiL
  | admin
  | graphite (i : Nat)
  | opentsdb
  | dataNode
  | raftLog
  | broker
deriving DecidableEq, Repr

/-- Embedding of `Node.closeClusterListener`: if the listener is non-nil,
close it and set the field to nil; return the close error (nil when the
listener was already nil). -/
def closeClusterListener (s : NodeHandles) : NodeHandles × Option String :=
  match s.clusterListener with
  | none => (s, none)
  | some r => ({ s with clusterListener := none }, r)

/-- Embedding of `Node.closeAPIListener`: if the listener is non-nil,
close it and set the field to nil; return the close error (nil when the
listener was already nil). -/
def closeAPIListener (s : NodeHandles) : NodeHandles × Option String :=
  match s.apiListener with
  | none => (s, none)
  | some r => ({ s with apiListener := none }, r)

/-- Embedding of `Node.closeAdminServer`: if the admin server is non-nil,
return its close result; otherwise nil.  The field is not cleared. -/
def closeAdminServer (s : NodeHandles) : Option String :=
  match s.adminServer with
  | none => none
  | some r => r

/-- One guarded close step of `Node.Close`:
`if h != nil { if err := h.Close(); err != nil { return err } }`, recording
the attempt under `label` and continuing with `rest` when no error is
returned. -/
def closeTail (label : Subsys) (h : Option (Option String))
    (rest : Unit → List Subsys × Option String) : List Subsys × Option String :=
  match h with
  | none => rest ()
  | some (some e) => ([label], some e)
  | some none =>
    let r := rest ()
    (label :: r.1, r.2)

/-- The `for _, g := range s.GraphiteServers { if err := g.Close(); ... }`
loop of `Node.Close`: every element is closed (no nil guard), the first
error returns. `i` is the slice index used to label attempts. -/
def closeGraphiteSeq (gs : List (Option String)) (i : Nat)
    (rest : Unit → List Subsys × Option String) : List Subsys × Option String :=
  match gs with
  | [] => rest ()
  | some e :: _ => ([.graphite i], some e)
  | none :: tl =>
    let r := closeGraphiteSeq tl (i + 1) rest
    (.graphite i :: r.1, r.2)

/-- Embedding of `Node.Close`: close the cluster listener, the API
listener, the admin server, each Graphite server, the OpenTSDB server,
the data node, the raft log and the broker, in that order, returning the
first error encountered (which halts the sequence) or nil.  Also returns
the resulting handle state and the ordered list of close attempts made. -/
def nodeClose (s : NodeHandles) : NodeHandles × List Subsys × Option String :=
  let t1 : List Subsys := if s.clusterListener.isSome then [.clusterL] else []
  match closeClusterListener s with
  | (s1, some e) => (s1, t1, some e)
  | (s1, none) =>
    let t2 : List Subsys := if s1.apiListener.isSome then [.apiL] else []
    match closeAPIListener s1 with
    | (s2, some e) => (s2, t1 ++ t2, some e)
    | (s2, none) =>
      let r :=
        closeTail .admin s2.adminServer fun _ =>
        closeGraphiteSeq s2.graphiteServers 0 fun _ =>
        closeTail .opentsdb s2.openTSDBServer fun _ =>
        closeTail .dataNode s2.dataNode fun _ =>
        closeTail .raftLog s2.raftLog fun _ =>
        closeTail .broker s2.broker fun _ =>
        ([], none)
      (s2, t1 ++ t2 ++ r.1, r.2)

/-- The plan of close attempts `Node.Close` would make on `s` if no step
returned an error: each present handle paired with its close result, in
the fixed order of `Close`. -/
def optPlan (label : Subsys) (h : Option (Option String)) :
    List (Subsys × Option String) :=
  match h with
  | none => []
  | some r => [(label, r)]

/-- The Graphite slice's contribution to the close plan. -/
def graphitePlan (gs : List (Option String)) (i : Nat) :
    List (Subsys × Option String) :=
  match gs with
  | [] => []
  | r :: tl => (.graphite i, r) :: graphitePlan tl (i + 1)

/-- The full close plan of a node, in the textual order of `Node.Close`. -/
def closePlan (s : NodeHandles) : List (Subsys × Option String) :=
  optPlan .clusterL s.clusterListener ++ optPlan .apiL s.apiListener ++
  optPlan .admin s.adminServer ++ graphitePlan s.graphiteServers 0 ++
  optPlan .opentsdb s.openTSDBServer ++ optPlan .dataNode s.dataNode ++
  optPlan .raftLog s.raftLog ++ optPlan .broker s.broker

/-- Run a close plan with early exit: attempt each step in order, stopping
at (and returning) the first error. -/
def runPlan : List (Subsys × Option String) → List Subsys × Option String
  | [] => ([], none)
  | (label, some e) :: _ => ([label], some e)
  | (label, none) :: rest =>
    let r := runPlan rest
    (label :: r.1, r.2)

/-- Modelled from the spec: the startup acquisition order of the subsystem
handles ("Start order: cluster listener and API listener → replicated-log
layer (4.1) → grace delay → data layer (4.2) → administrative server →
auxiliary ingest servers"), refined to the handle granularity of `Close`:
the replicated-log layer owns the broker and its raft log (broker created
first), and the auxiliary ingest servers are the Graphite servers and the
OpenTSDB server. -/
def specStartOrder : List Subsys :=
  [.clusterL, .apiL, .broker, .raftLog, .dataNode, .admin, .graphite 0, .opentsdb]

/-! ## `ClusterURL` -/

/-- Split a character list at its last colon, when one exists. -/
def splitAtLastColon : List Char → Option (List Char × List Char)
  | [] => none
  | c :: rest =>
    match splitAtLastColon rest with
    | some hp => some (c :: hp.1, hp.2)
    | none => if c = ':' then some ([], rest) else none

/-- Model of the platform address parser `net.SplitHostPort` for plain
`host:port` strings (no bracketed IPv6 form): split at the last colon;
an address with no colon has no port and is a parse error. -/
def splitHostPort (addr : String) : Except String (String × String) :=
  match splitAtLastColon addr.data with
  | none => .error ("address " ++ addr ++ ": missing port in address")
  | some hp => .ok (⟨hp.1⟩, ⟨hp.2⟩)

/-- Model of `net.JoinHostPort`: bracket the host when it contains a
colon. -/
def joinHostPort (host port : String) : String :=
  if host.data.contains ':' then "[" ++ host ++ "]:" ++ port
  else host ++ ":" ++ port

/-- The parts of the `url.URL` built by `Node.ClusterURL`. -/
structure SimpleURL where
  scheme : String
  host : String
deriving DecidableEq, Repr

/-- Result of `Node.ClusterURL`: a URL, or a panic on a parse error. -/
inductive ClusterURLResult where
  | ok (u : SimpleURL)
  | panicked (e : String)
deriving DecidableEq, Repr

/-- The network-facing configuration and state of a node that
`Node.ClusterURL` could draw on: the fixed hostname, the configured
cluster bind address, and the cluster listener's resolved bound address
(`s.clusterListener.Addr().String()`, assigned by the operating system
after listen). -/
structure NodeNet where
  hostname : String
  configBindAddr : String
  boundAddr : String
deriving DecidableEq, Repr

/-- Embedding of `Node.ClusterURL`: split the cluster listener's bound
address; panic on a parse error; otherwise join the node's fixed hostname
with the bound port and return an http URL. -/
def clusterURL (s : NodeNet) : ClusterURLResult :=
  match splitHostPort s.boundAddr with
  | .error e => .panicked e
  | .ok hp => .ok ⟨"http", joinHostPort s.hostname hp.2⟩

/-! ## Helper lemmas -/

lemma attemptedURLs_append (a b : List LogEvent) :
    attemptedURLs (a ++ b) = attemptedURLs a ++ attemptedURLs b := by
  simp [attemptedURLs]

lemma attemptedURLs_joinCalls (f : URL → Option LogJoinErr) (xs : List URL) :
    attemptedURLs (xs.map fun v => LogEvent.joinCall v (f v)) = xs := by
  induction xs with
  | nil => simp [attemptedURLs]
  | cons v vs ih =>
    simp [attemptedURLs] at ih ⊢
    exact ih

/-- Running `joinLog` over a list whose front segment consists of
candidates that all fail with ordinary errors records one failed attempt
per front candidate and then continues with the remainder. -/
lemma joinLog_fails_append (join : URL → Option LogJoinErr) :
    ∀ pre rest, (∀ v ∈ pre, otherFail join v) →
      joinLog join (pre ++ rest) =
        ((pre.map fun v => LogEvent.joinCall v (join v)) ++ (joinLog join rest).1,
          (joinLog join rest).2)
  | [], rest, _ => by simp
  | v :: vs, rest, h => by
    obtain ⟨m, hm⟩ := h v (List.mem_cons_self v vs)
    have ih := joinLog_fails_append join vs rest fun w hw => h w (List.mem_cons_of_mem _ hw)
    simp [joinLog, hm, ih]

/-- The candidates attempted by `joinLog` are an initial segment of the
seed list. -/
lemma joinLog_attempts (join : URL → Option LogJoinErr) (seeds : List URL) :
    attemptedURLs (joinLog join seeds).1 <+: seeds := by
  induction seeds with
  | nil => simp [joinLog, attemptedURLs]
  | cons u us ih =>
    match hj : join u with
    | none =>
      simp only [joinLog, hj]
      exact ⟨us, by simp [attemptedURLs]⟩
    | some .errInitialized =>
      simp only [joinLog, hj]
      exact ⟨us, by simp [attemptedURLs]⟩
    | some (.other m) =>
      simp only [joinLog, hj]
      obtain ⟨t, ht⟩ := ih
      exact ⟨t, by simp [attemptedURLs] at ht ⊢; exact ht⟩

/-! ## C1: log-layer join order and termination -/

/-- C1. With persisted index 0 and a non-empty seed list, the log-layer
join protocol attempts candidates strictly in input list order, each
candidate at most once (the attempted candidates are an initial segment
of the seed list); when every candidate before `u` fails with an ordinary
error, a distinguished `ErrInitialized` from `u` terminates the loop
immediately as success and a plain success from `u` terminates the loop
as success, in both cases with exactly the candidates up to `u`
attempted; and when every candidate fails with an ordinary error, every
candidate is attempted and the result is fatal. -/
theorem joinLog_tries_seeds_in_order (join : URL → Option LogJoinErr)
    (initRes : Option String) (seeds : List URL) (h : seeds ≠ []) :
    attemptedURLs (openBrokerJoin 0 seeds join initRes).1 <+: seeds ∧
    (∀ pre u post, seeds = pre ++ u :: post → (∀ v ∈ pre, otherFail join v) →
      ((join u = some .errInitialized →
          (openBrokerJoin 0 seeds join initRes).2 = .alreadyInitialized u ∧
          attemptedURLs (openBrokerJoin 0 seeds join initRes).1 = pre ++ [u]) ∧
        (join u = none →
          (openBrokerJoin 0 seeds join initRes).2 = .joined u ∧
          attemptedURLs (openBrokerJoin 0 seeds join initRes).1 = pre ++ [u]))) ∧
    ((∀ v ∈ seeds, otherFail join v) →
      (openBrokerJoin 0 seeds join initRes).2 = .fatalExhausted ∧
      attemptedURLs (openBrokerJoin 0 seeds join initRes).1 = seeds) := by
  have hlen : seeds.length > 0 := List.length_pos.mpr h
  have hopen : openBrokerJoin 0 seeds join initRes = joinLog join seeds := by
    simp [openBrokerJoin, hlen]
  rw [hopen]
  refine ⟨joinLog_attempts join seeds, ?_, ?_⟩
  · rintro pre u post rfl hpre
    have hsplit := joinLog_fails_append join pre (u :: post) hpre
    constructor
    · intro hj
      rw [hsplit]
      have : joinLog join (u :: post) =
          ([.joinCall u (some .errInitialized)], .alreadyInitialized u) := by
        simp [joinLog, hj]
      rw [this]
      refine ⟨rfl, ?_⟩
      rw [attemptedURLs_append, attemptedURLs_joinCalls]
      simp [attemptedURLs]
    · intro hj
      rw [hsplit]
      have : joinLog join (u :: post) = ([.joinCall u none], .joined u) := by
        simp [joinLog, hj]
      rw [this]
      refine ⟨rfl, ?_⟩
      rw [attemptedURLs_append, attemptedURLs_joinCalls]
      simp [attemptedURLs]
  · intro hall
    have hsplit := joinLog_fails_append join seeds [] hall
    rw [List.append_nil] at hsplit
    rw [hsplit]
    refine ⟨rfl, ?_⟩
    rw [attemptedURLs_append, attemptedURLs_joinCalls]
    simp [joinLog, attemptedURLs]

/-- Witness for C1 at a concrete input: three seeds where the first fails
with an ordinary error and the second succeeds. -/
theorem joinLog_tries_seeds_in_order_witness :
    (["a", "b", "c"] : List URL) ≠ [] ∧
    (attemptedURLs (openBrokerJoin 0 ["a", "b", "c"]
        (fun u => if u = "a" then some (.other "refused") else
          if u = "b" then none else some (.other "refused")) none).1 <+: ["a", "b", "c"] ∧
      (∀ pre u post, (["a", "b", "c"] : List URL) = pre ++ u :: post →
        (∀ v ∈ pre, otherFail (fun u => if u = "a" then some (.other "refused") else
          if u = "b" then none else some (.other "refused")) v) →
        ((((fun u => if u = "a" then some (.other "refused") else
            if u = "b" then none else some (.other "refused")) : URL → Option LogJoinErr) u
              = some .errInitialized →
            (openBrokerJoin 0 ["a", "b", "c"]
              (fun u => if u = "a" then some (.other "refused") else
                if u = "b" then none else some (.other "refused")) none).2
              = .alreadyInitialized u ∧
            attemptedURLs (openBrokerJoin 0 ["a", "b", "c"]
              (fun u => if u = "a" then some (.other "refused") else
                if u = "b" then none else some (.other "refused")) none).1 = pre ++ [u]) ∧
          (((fun u => if u = "a" then some (.other "refused") else
            if u = "b" then none else some (.other "refused")) : URL → Option LogJoinErr) u
              = none →
            (openBrokerJoin 0 ["a", "b", "c"]
              (fun u => if u = "a" then some (.other "refused") else
                if u = "b" then none else some (.other "refused")) none).2 = .joined u ∧
            attemptedURLs (openBrokerJoin 0 ["a", "b", "c"]
              (fun u => if u = "a" then some (.other "refused") else
                if u = "b" then none else some (.other "refused")) none).1 = pre ++ [u]))) ∧
      ((∀ v ∈ (["a", "b", "c"] : List URL),
          otherFail (fun u => if u = "a" then some (.other "refused") else
            if u = "b" then none else some (.other "refused")) v) →
        (openBrokerJoin 0 ["a", "b", "c"]
          (fun u => if u = "a" then some (.other "refused") else
            if u = "b" then none else some (.other "refused")) none).2 = .fatalExhausted ∧
        attemptedURLs (openBrokerJoin 0 ["a", "b", "c"]
          (fun u => if u = "a" then some (.other "refused") else
            if u = "b" then none else some (.other "refused")) none).1 = ["a", "b", "c"])) :=
  ⟨by simp, joinLog_tries_seeds_in_order _ none ["a", "b", "c"] (by simp)⟩

/-! ## C2: non-zero index ignores seeds -/

/-- C2. When the persisted last index is not 0, opening the broker
performs no seed join attempt and no initialize call — its event list is
empty for every seed list — and the outcome is the `alreadyMember` log
line ("broker already member of cluster.  Using existing state and
ignoring join URLs"). -/
theorem broker_nonzero_index_ignores_seeds (index : Nat) (seeds : List URL)
    (join : URL → Option LogJoinErr) (initRes : Option String) (h : index ≠ 0) :
    openBrokerJoin index seeds join initRes = ([], .alreadyMember) := by
  simp [openBrokerJoin, h]

/-- Witness for C2 at a concrete input: index 5 and a non-empty,
unreachable seed list. -/
theorem broker_nonzero_index_ignores_seeds_witness :
    (5 : Nat) ≠ 0 ∧
    openBrokerJoin 5 ["http://unreachable:9999"]
      (fun _ => some (.other "connection refused")) none = ([], .alreadyMember) :=
  ⟨by decide,
    broker_nonzero_index_ignores_seeds 5 ["http://unreachable:9999"]
      (fun _ => some (.other "connection refused")) none (by decide)⟩

/-! ## C3: data-layer "no data nodes found" -/

/-- Running the data-layer join loop over a list whose front segment
consists of candidates that all fail with ordinary errors records one
failed attempt per front candidate and then continues with the
remainder. -/
lemma serverJoinLoop_fails_append (u : URL) (join : URL → Option DataJoinErr)
    (dinit : URL → Option String) :
    ∀ pre rest, (∀ v ∈ pre, dataOtherFail join v) →
      serverJoinLoop u join dinit (pre ++ rest) =
        ((pre.map fun v => DataEvent.joinCall v (join v)) ++
            (serverJoinLoop u join dinit rest).1,
          (serverJoinLoop u join dinit rest).2)
  | [], rest, _ => by simp
  | v :: vs, rest, h => by
    obtain ⟨m, hm⟩ := h v (List.mem_cons_self v vs)
    have ih := serverJoinLoop_fails_append u join dinit vs rest
      fun w hw => h w (List.mem_cons_of_mem _ hw)
    simp [serverJoinLoop, hm, ih]

/-- C3. In the data-layer join loop, when a candidate `p` returns the
distinguished `ErrDataNodeNotFound` (every earlier candidate having
failed with an ordinary error), the node immediately calls
`n.Initialize` with its local cluster URL `u` and the loop terminates —
the recorded events are exactly the failed attempts before `p`, the
attempt on `p`, and the initialize call on `u`, with no later candidate
tried.  Failure of that self-initialize is fatal (`fatalInit`), success
gives `selfInitialized`, and the outcome is never the candidate-exhaustion
fatal (`fatalExhausted`). -/
theorem dataNotFound_self_initializes (u : URL) (join : URL → Option DataJoinErr)
    (dinit : URL → Option String) (joinURLs pre post : List URL) (p : URL)
    (hsplit : joinURLs = pre ++ p :: post) (hpre : ∀ v ∈ pre, dataOtherFail join v)
    (hp : join p = some .errDataNodeNotFound) :
    joinOrInitializeServer u join dinit joinURLs =
      ((pre.map fun v => DataEvent.joinCall v (join v)) ++
          DataEvent.joinCall p (some .errDataNodeNotFound) :: (initializeServer u dinit).1,
        (initializeServer u dinit).2) ∧
    (dinit u = none →
      (joinOrInitializeServer u join dinit joinURLs).2 = ServerOutcome.selfInitialized) ∧
    (∀ m, dinit u = some m →
      (joinOrInitializeServer u join dinit joinURLs).2 = ServerOutcome.fatalInit m) ∧
    (joinOrInitializeServer u join dinit joinURLs).2 ≠ ServerOutcome.fatalExhausted := by
  subst hsplit
  have hloop := serverJoinLoop_fails_append u join dinit pre (p :: post) hpre
  have hhead : serverJoinLoop u join dinit (p :: post) =
      (DataEvent.joinCall p (some .errDataNodeNotFound) :: (initializeServer u dinit).1,
        some (initializeServer u dinit).2) := by
    simp [serverJoinLoop, hp]
  rw [hhead] at hloop
  have hmain : joinOrInitializeServer u join dinit (pre ++ p :: post) =
      ((pre.map fun v => DataEvent.joinCall v (join v)) ++
          DataEvent.joinCall p (some .errDataNodeNotFound) :: (initializeServer u dinit).1,
        (initializeServer u dinit).2) := by
    simp [joinOrInitializeServer, hloop]
  refine ⟨hmain, ?_, ?_, ?_⟩
  · intro hd
    rw [hmain]
    simp [initializeServer, hd]
  · intro m hd
    rw [hmain]
    simp [initializeServer, hd]
  · rw [hmain]
    match hd : dinit u with
    | none => simp [initializeServer, hd]
    | some m => simp [initializeServer, hd]

/-- Witness for C3 at a concrete input: the first candidate fails with an
ordinary error and the second reports `ErrDataNodeNotFound`; the local
initialize succeeds. -/
theorem dataNotFound_self_initializes_witness :
    ((["a", "b", "c"] : List URL) = ["a"] ++ "b" :: ["c"] ∧
      (∀ v ∈ (["a"] : List URL),
        dataOtherFail (fun q => if q = "a" then some (.other "refused") else
          if q = "b" then some .errDataNodeNotFound else none) v) ∧
      ((fun q => if q = "a" then some (.other "refused") else
          if q = "b" then some .errDataNodeNotFound else none) : URL → Option DataJoinErr) "b"
        = some .errDataNodeNotFound) ∧
    (joinOrInitializeServer "http://self:1" (fun q => if q = "a" then some (.other "refused") else
        if q = "b" then some .errDataNodeNotFound else none) (fun _ => none)
        ["a", "b", "c"]).2 ≠ ServerOutcome.fatalExhausted :=
  ⟨⟨by decide, by intro v hv; exact ⟨"refused", by simp at hv; simp [hv, dataOtherFail]⟩,
      by decide⟩,
    (dataNotFound_self_initializes "http://self:1"
      (fun q => if q = "a" then some (.other "refused") else
        if q = "b" then some .errDataNodeNotFound else none) (fun _ => none)
      ["a", "b", "c"] ["a"] ["c"] "b" (by decide)
      (by intro v hv; exact ⟨"refused", by simp at hv; simp [hv, dataOtherFail]⟩)
      (by decide)).2.2.2⟩

/-! ## C4: empty candidate list and no prior state -/

/-- C4. For each layer, an empty candidate list together with no prior
membership state (log index 0, assigned identity 0) leads to
self-initialization with no join attempt ever made — the event list is
exactly one initialize call — and failure of that self-initialization is
fatal (`fatalInit`); the data layer initializes with its local cluster
URL. -/
theorem empty_seeds_self_init (join : URL → Option LogJoinErr)
    (initRes : Option String) (u : URL) (djoin : URL → Option DataJoinErr)
    (dinit : URL → Option String) :
    ((openBrokerJoin 0 [] join initRes).1 = [LogEvent.initCall initRes] ∧
      (initRes = none →
        (openBrokerJoin 0 [] join initRes).2 = BrokerOutcome.selfInitialized) ∧
      ∀ m, initRes = some m →
        (openBrokerJoin 0 [] join initRes).2 = BrokerOutcome.fatalInit m) ∧
    ((openServerJoin 0 u djoin dinit []).1 = [DataEvent.initCall u (dinit u)] ∧
      (dinit u = none →
        (openServerJoin 0 u djoin dinit []).2 = ServerOutcome.selfInitialized) ∧
      ∀ m, dinit u = some m →
        (openServerJoin 0 u djoin dinit []).2 = ServerOutcome.fatalInit m) := by
  constructor
  · match initRes with
    | none => refine ⟨by simp [openBrokerJoin], fun _ => by simp [openBrokerJoin], ?_⟩
              intro m hm; exact absurd hm (by simp)
    | some m =>
      refine ⟨by simp [openBrokerJoin], fun hm => absurd hm (by simp), ?_⟩
      intro m2 hm2
      simp at hm2
      simp [openBrokerJoin, hm2]
  · match hd : dinit u with
    | none =>
      refine ⟨?_, fun _ => ?_, ?_⟩
      · simp [openServerJoin, joinOrInitializeServer, serverJoinLoop, initializeServer, hd]
      · simp [openServerJoin, joinOrInitializeServer, serverJoinLoop, initializeServer, hd]
      · intro m hm; exact absurd hm (by simp [hd])
    | some m =>
      refine ⟨?_, fun hm => absurd hm (by simp), ?_⟩
      · simp [openServerJoin, joinOrInitializeServer, serverJoinLoop, initializeServer, hd]
      · intro m2 hm2
        injection hm2 with hmm
        subst hmm
        simp [openServerJoin, joinOrInitializeServer, serverJoinLoop, initializeServer, hd]

/-- Witness for C4 at a concrete input: both layers with empty candidate
lists, log initialize failing and data initialize succeeding. -/
theorem empty_seeds_self_init_witness :
    (openBrokerJoin 0 [] (fun _ => none) (some "disk full")).2
        = BrokerOutcome.fatalInit "disk full" ∧
    (openServerJoin 0 "http://self:1" (fun _ => none) (fun _ => none) []).2
        = ServerOutcome.selfInitialized :=
  ⟨((empty_seeds_self_init (fun _ => none) (some "disk full") "http://self:1"
        (fun _ => none) (fun _ => none)).1.2.2 "disk full" rfl),
    ((empty_seeds_self_init (fun _ => none) (some "disk full") "http://self:1"
        (fun _ => none) (fun _ => none)).2.2.1 rfl)⟩

/-! ## Close sequencing lemmas -/

lemma closeTail_runPlan (label : Subsys) (h : Option (Option String))
    (rest : Unit → List Subsys × Option String) (P : List (Subsys × Option String))
    (hr : rest () = runPlan P) :
    closeTail label h rest = runPlan (optPlan label h ++ P) := by
  match h with
  | none => simpa [closeTail, optPlan] using hr
  | some (some e) => simp [closeTail, optPlan, runPlan]
  | some none => simp [closeTail, optPlan, runPlan, hr]

lemma closeGraphiteSeq_runPlan (rest : Unit → List Subsys × Option String)
    (P : List (Subsys × Option String)) (hr : rest () = runPlan P) :
    ∀ gs i, closeGraphiteSeq gs i rest = runPlan (graphitePlan gs i ++ P)
  | [], _ => by simpa [closeGraphiteSeq, graphitePlan] using hr
  | some e :: tl, i => by simp [closeGraphiteSeq, graphitePlan, runPlan]
  | none :: tl, i => by
    have ih := closeGraphiteSeq_runPlan rest P hr tl (i + 1)
    simp [closeGraphiteSeq, graphitePlan, runPlan, ih]

/-- The chain of guarded close steps after the two listeners equals the
early-exit run of its plan. -/
lemma closeChain_run (ad : Option (Option String)) (gs : List (Option String))
    (ot dn rl br : Option (Option String)) :
    (closeTail .admin ad fun _ =>
      closeGraphiteSeq gs 0 fun _ =>
      closeTail .opentsdb ot fun _ =>
      closeTail .dataNode dn fun _ =>
      closeTail .raftLog rl fun _ =>
      closeTail .broker br fun _ =>
      ([], none)) =
    runPlan (optPlan .admin ad ++ (graphitePlan gs 0 ++ (optPlan .opentsdb ot ++
      (optPlan .dataNode dn ++ (optPlan .raftLog rl ++ optPlan .broker br))))) := by
  have h1 : closeTail .broker br (fun _ => ([], none)) =
      runPlan (optPlan .broker br ++ []) :=
    closeTail_runPlan _ _ _ [] rfl
  have h2 := closeTail_runPlan .raftLog rl
    (fun _ => closeTail .broker br fun _ => ([], none)) _ h1
  have h3 := closeTail_runPlan .dataNode dn
    (fun _ => closeTail .raftLog rl fun _ => closeTail .broker br fun _ => ([], none)) _ h2
  have h4 := closeTail_runPlan .opentsdb ot
    (fun _ => closeTail .dataNode dn fun _ => closeTail .raftLog rl fun _ =>
      closeTail .broker br fun _ => ([], none)) _ h3
  have h5 := closeGraphiteSeq_runPlan
    (fun _ => closeTail .opentsdb ot fun _ => closeTail .dataNode dn fun _ =>
      closeTail .raftLog rl fun _ => closeTail .broker br fun _ => ([], none)) _ h4 gs 0
  have h6 := closeTail_runPlan .admin ad
    (fun _ => closeGraphiteSeq gs 0 fun _ => closeTail .opentsdb ot fun _ =>
      closeTail .dataNode dn fun _ => closeTail .raftLog rl fun _ =>
      closeTail .broker br fun _ => ([], none)) _ h5
  simpa using h6

/-- `Node.Close` attempts exactly the close plan of its state, with early
exit at the first error. -/
lemma nodeClose_run (s : NodeHandles) : (nodeClose s).2 = runPlan (closePlan s) := by
  obtain ⟨cl, al, ad, gs, ot, dn, rl, br⟩ := s
  have hch := closeChain_run ad gs ot dn rl br
  match cl with
  | some (some e) =>
    simp [nodeClose, closeClusterListener, closePlan, optPlan, runPlan]
  | none =>
    match al with
    | some (some e) =>
      simp [nodeClose, closeClusterListener, closeAPIListener, closePlan, optPlan, runPlan]
    | none =>
      simp [nodeClose, closeClusterListener, closeAPIListener, closePlan, optPlan, hch,
        List.append_assoc]
    | some none =>
      simp [nodeClose, closeClusterListener, closeAPIListener, closePlan, optPlan, runPlan,
        hch, List.append_assoc]
  | some none =>
    match al with
    | some (some e) =>
      simp [nodeClose, closeClusterListener, closeAPIListener, closePlan, optPlan, runPlan]
    | none =>
      simp [nodeClose, closeClusterListener, closeAPIListener, closePlan, optPlan, runPlan,
        hch, List.append_assoc]
    | some none =>
      simp [nodeClose, closeClusterListener, closeAPIListener, closePlan, optPlan, runPlan,
        hch, List.append_assoc]

lemma runPlan_all_ok (P : List (Subsys × Option String)) (h : ∀ p ∈ P, p.2 = none) :
    runPlan P = (P.map Prod.fst, none) := by
  induction P with
  | nil => simp [runPlan]
  | cons hd tl ih =>
    obtain ⟨l, r⟩ := hd
    have hr : r = none := h (l, r) (List.mem_cons_self _ _)
    subst hr
    simp [runPlan, ih fun p hp => h p (List.mem_cons_of_mem _ hp)]

lemma runPlan_ok_iff (P : List (Subsys × Option String)) :
    (runPlan P).2 = none ↔ ∀ p ∈ P, p.2 = none := by
  induction P with
  | nil => simp [runPlan]
  | cons hd tl ih =>
    obtain ⟨l, r⟩ := hd
    match r with
    | none => simp [runPlan, ih]
    | some e => simp [runPlan]

lemma runPlan_err (P : List (Subsys × Option String)) (e : String)
    (h : (runPlan P).2 = some e) :
    ∃ pre l post, P = pre ++ (l, some e) :: post ∧
      (∀ p ∈ pre, p.2 = none) ∧ (runPlan P).1 = pre.map Prod.fst ++ [l] := by
  induction P with
  | nil => simp [runPlan] at h
  | cons hd tl ih =>
    obtain ⟨l, r⟩ := hd
    match r with
    | some e2 =>
      have : e2 = e := by simpa [runPlan] using h
      subst this
      exact ⟨[], l, tl, by simp, by simp, by simp [runPlan]⟩
    | none =>
      have htl : (runPlan tl).2 = some e := by simpa [runPlan] using h
      obtain ⟨pre, l2, post, hP, hpre, htr⟩ := ih htl
      refine ⟨(l, none) :: pre, l2, post, by simp [hP], ?_, ?_⟩
      · intro p hp
        rcases List.mem_cons.mp hp with h1 | h1
        · simp [h1]
        · exact hpre p h1
      · simp [runPlan, htr]

lemma runPlan_mem (P : List (Subsys × Option String)) (x : Subsys)
    (h : x ∈ (runPlan P).1) : ∃ r, (x, r) ∈ P := by
  induction P with
  | nil => simp [runPlan] at h
  | cons hd tl ih =>
    obtain ⟨l, r⟩ := hd
    match r with
    | some e =>
      simp [runPlan] at h
      exact ⟨some e, by simp [h]⟩
    | none =>
      simp [runPlan] at h
      rcases h with h | h
      · exact ⟨none, by simp [h]⟩
      · obtain ⟨r2, hr2⟩ := ih h
        exact ⟨r2, List.mem_cons_of_mem _ hr2⟩

/-! ## C5: shutdown order -/

/-- A node on which every subsystem is present and every close succeeds. -/
def fullNode : NodeHandles :=
  ⟨some none, some none, some none, [none], some none, some none, some none, some none⟩

/-- C5 (counterexample). On a fully populated node whose subsystems were
acquired in the stated start order, `Close` releases the handles in the
order cluster listener, API listener, admin server, Graphite server,
OpenTSDB server, data node, raft log, broker — which is not the strict
reverse of the acquisition order (the cluster listener, acquired first,
is closed first rather than last). -/
theorem close_order_not_reverse_counterexample :
    (nodeClose fullNode).2.1 =
      [Subsys.clusterL, Subsys.apiL, Subsys.admin, Subsys.graphite 0,
        Subsys.opentsdb, Subsys.dataNode, Subsys.raftLog, Subsys.broker] ∧
    (nodeClose fullNode).2.1 ≠ specStartOrder.reverse := by
  decide

/-- C5 (amended). When every present handle closes successfully, `Close`
releases the handles in the fixed textual order of `closePlan`: cluster
listener, API listener, administrative server, Graphite servers in slice
order, OpenTSDB server, data node, raft log, broker.  The two listeners
are thus closed first, in the same order they were acquired; only the
remaining subsystems follow (admin and auxiliary ingest servers before
the data layer and the log layer). -/
theorem close_order_fixed (s : NodeHandles) (h : ∀ p ∈ closePlan s, p.2 = none) :
    (nodeClose s).2.1 = (closePlan s).map Prod.fst := by
  rw [nodeClose_run, runPlan_all_ok (closePlan s) h]

/-- Witness for the amended C5 at the fully populated node. -/
theorem close_order_fixed_witness :
    (∀ p ∈ closePlan fullNode, p.2 = none) ∧
    (nodeClose fullNode).2.1 = (closePlan fullNode).map Prod.fst :=
  ⟨by decide, close_order_fixed fullNode (by decide)⟩

/-! ## C6: first close error halts teardown -/

/-- C6. During `Close`, when every step succeeds the whole plan is
attempted and `nil` is returned; `nil` is returned only in that case; and
when `Close` returns an error `e`, that error came from the first failing
handle in close order — every handle before it closed successfully, the
failing handle is the last one attempted, and no later handle is
closed. -/
theorem close_first_error_halts (s : NodeHandles) :
    ((∀ p ∈ closePlan s, p.2 = none) →
      (nodeClose s).2 = ((closePlan s).map Prod.fst, none)) ∧
    ((nodeClose s).2.2 = none → ∀ p ∈ closePlan s, p.2 = none) ∧
    (∀ e, (nodeClose s).2.2 = some e →
      ∃ pre l post, closePlan s = pre ++ (l, some e) :: post ∧
        (∀ p ∈ pre, p.2 = none) ∧
        (nodeClose s).2.1 = pre.map Prod.fst ++ [l]) := by
  refine ⟨?_, ?_, ?_⟩
  · intro h
    rw [nodeClose_run, runPlan_all_ok (closePlan s) h]
  · intro h
    rw [nodeClose_run] at h
    exact (runPlan_ok_iff (closePlan s)).mp h
  · intro e he
    rw [nodeClose_run] at he ⊢
    exact runPlan_err (closePlan s) e he

/-- A node whose data-node close fails while the listeners and broker
close cleanly. -/
def dataErrNode : NodeHandles :=
  ⟨some none, none, none, [], none, some (some "data close failed"), none, some none⟩

/-- Witness for C6: on `fullNode` every step succeeds and `Close` returns
nil; on `dataErrNode` the data-node error is returned, the cluster
listener (the only earlier present handle) was closed first, and the
broker is never closed. -/
theorem close_first_error_halts_witness :
    ((∀ p ∈ closePlan fullNode, p.2 = none) ∧
      (nodeClose fullNode).2 = ((closePlan fullNode).map Prod.fst, none)) ∧
    ((nodeClose dataErrNode).2.2 = some "data close failed" ∧
      ∃ pre l post, closePlan dataErrNode = pre ++ (l, some "data close failed") :: post ∧
        (∀ p ∈ pre, p.2 = none) ∧
        (nodeClose dataErrNode).2.1 = pre.map Prod.fst ++ [l]) :=
  ⟨⟨by decide, (close_first_error_halts fullNode).1 (by decide)⟩,
    ⟨by decide, (close_first_error_halts dataErrNode).2.2 "data close failed" (by decide)⟩⟩

/-! ## C9: idempotent listener close -/

/-- C9. Closing either listener twice in succession is idempotent: after
one call the handle field is cleared, so the second call performs no
close action, changes nothing, and returns nil success. -/
theorem listener_close_idempotent (s : NodeHandles) :
    closeClusterListener (closeClusterListener s).1 = ((closeClusterListener s).1, none) ∧
    closeAPIListener (closeAPIListener s).1 = ((closeAPIListener s).1, none) := by
  constructor
  · cases hcl : s.clusterListener <;> simp [closeClusterListener, hcl]
  · cases hal : s.apiListener <;> simp [closeAPIListener, hal]

/-! ## C10: a failed listener close is never re-attempted -/

lemma optPlan_mem_label (label : Subsys) (f : Option (Option String))
    (x : Subsys × Option String) (h : x ∈ optPlan label f) : x.1 = label := by
  match f with
  | none => simp [optPlan] at h
  | some r =>
    simp [optPlan] at h
    simp [h]

lemma graphitePlan_mem_label :
    ∀ gs i (x : Subsys × Option String), x ∈ graphitePlan gs i →
      ∃ j, x.1 = Subsys.graphite j
  | [], _, x => by simp [graphitePlan]
  | r :: tl, i, x => by
    intro h
    simp only [graphitePlan, List.mem_cons] at h
    rcases h with h | h
    · exact ⟨i, by simp [h]⟩
    · exact graphitePlan_mem_label tl (i + 1) x h

lemma closePlan_no_clusterL (s : NodeHandles) (h : s.clusterListener = none)
    (r : Option String) : (Subsys.clusterL, r) ∉ closePlan s := by
  intro hr
  simp only [closePlan, List.mem_append] at hr
  rcases hr with ((((((h1 | h1) | h1) | h1) | h1) | h1) | h1) | h1
  · rw [h] at h1
    simp [optPlan] at h1
  · have := optPlan_mem_label _ _ _ h1
    simp at this
  · have := optPlan_mem_label _ _ _ h1
    simp at this
  · obtain ⟨j, hj⟩ := graphitePlan_mem_label _ _ _ h1
    simp at hj
  · have := optPlan_mem_label _ _ _ h1
    simp at this
  · have := optPlan_mem_label _ _ _ h1
    simp at this
  · have := optPlan_mem_label _ _ _ h1
    simp at this
  · have := optPlan_mem_label _ _ _ h1
    simp at this

lemma closePlan_no_apiL (s : NodeHandles) (h : s.apiListener = none)
    (r : Option String) : (Subsys.apiL, r) ∉ closePlan s := by
  intro hr
  simp only [closePlan, List.mem_append] at hr
  rcases hr with ((((((h1 | h1) | h1) | h1) | h1) | h1) | h1) | h1
  · have := optPlan_mem_label _ _ _ h1
    simp at this
  · rw [h] at h1
    simp [optPlan] at h1
  · have := optPlan_mem_label _ _ _ h1
    simp at this
  · obtain ⟨j, hj⟩ := graphitePlan_mem_label _ _ _ h1
    simp at hj
  · have := optPlan_mem_label _ _ _ h1
    simp at this
  · have := optPlan_mem_label _ _ _ h1
    simp at this
  · have := optPlan_mem_label _ _ _ h1
    simp at this
  · have := optPlan_mem_label _ _ _ h1
    simp at this

/-- After `Close`, the cluster-listener field is always nil (its closer
runs first, unconditionally). -/
lemma nodeClose_clusterListener (s : NodeHandles) :
    (nodeClose s).1.clusterListener = none := by
  rcases hcl : s.clusterListener with _ | (_ | e) <;>
    rcases hal : s.apiListener with _ | (_ | e2) <;>
      simp [nodeClose, closeClusterListener, closeAPIListener, hcl, hal]

/-- When the cluster-listener step of `Close` does not fail, the
API-listener field is nil afterwards (its closer ran). -/
lemma nodeClose_apiListener (s : NodeHandles) (h : (closeClusterListener s).2 = none) :
    (nodeClose s).1.apiListener = none := by
  rcases hcl : s.clusterListener with _ | (_ | e)
  · rcases hal : s.apiListener with _ | (_ | e2) <;>
      simp [nodeClose, closeClusterListener, closeAPIListener, hcl, hal]
  · rcases hal : s.apiListener with _ | (_ | e2) <;>
      simp [nodeClose, closeClusterListener, closeAPIListener, hcl, hal]
  · rw [closeClusterListener] at h
    simp [hcl] at h

lemma nodeClose_trace_no_clusterL (s : NodeHandles) (h : s.clusterListener = none) :
    Subsys.clusterL ∉ (nodeClose s).2.1 := by
  intro hx
  rw [nodeClose_run] at hx
  obtain ⟨r, hr⟩ := runPlan_mem _ _ hx
  exact closePlan_no_clusterL s h r hr

lemma nodeClose_trace_no_apiL (s : NodeHandles) (h : s.apiListener = none) :
    Subsys.apiL ∉ (nodeClose s).2.1 := by
  intro hx
  rw [nodeClose_run] at hx
  obtain ⟨r, hr⟩ := runPlan_mem _ _ hx
  exact closePlan_no_apiL s h r hr

/-- C10. After `closeClusterListener` or `closeAPIListener` returns —
whether the underlying close succeeded or errored — the corresponding
listener field is nil.  Consequently a second `Close` never attempts the
cluster listener again, and whenever the cluster step did not fail (so
the API listener's close, failed or not, was the one attempted), a
second `Close` never attempts the API listener again: a listener close
error is reported at most once. -/
theorem listener_close_clears_field (s : NodeHandles) :
    (closeClusterListener s).1.clusterListener = none ∧
    (closeAPIListener s).1.apiListener = none ∧
    Subsys.clusterL ∉ (nodeClose (nodeClose s).1).2.1 ∧
    ((closeClusterListener s).2 = none →
      Subsys.apiL ∉ (nodeClose (nodeClose s).1).2.1) := by
  refine ⟨?_, ?_, ?_, ?_⟩
  · cases hcl : s.clusterListener <;> simp [closeClusterListener, hcl]
  · cases hal : s.apiListener <;> simp [closeAPIListener, hal]
  · exact nodeClose_trace_no_clusterL _ (nodeClose_clusterListener s)
  · intro h
    exact nodeClose_trace_no_apiL _ (nodeClose_apiListener s h)

/-- A node whose API-listener close fails while everything else closes
cleanly. -/
def apiErrNode : NodeHandles :=
  ⟨some none, some (some "api close failed"), none, [], none, none, none, some none⟩

/-- Witness for C10: with a failed API-listener close, the first `Close`
reports the error and a second `Close` does not attempt either
listener. -/
theorem listener_close_clears_field_witness :
    (closeClusterListener apiErrNode).2 = none ∧
    (nodeClose apiErrNode).2.2 = some "api close failed" ∧
    Subsys.apiL ∉ (nodeClose (nodeClose apiErrNode).1).2.1 :=
  ⟨by decide, by decide,
    (listener_close_clears_field apiErrNode).2.2.2 (by decide)⟩

/-! ## C7: at most one membership operation per layer -/

/-- Number of `l.Initialize()` calls among recorded log-layer events. -/
def logInitCount : List LogEvent → Nat
  | [] => 0
  | .initCall _ :: es => logInitCount es + 1
  | .joinCall _ _ :: es => logInitCount es

/-- Number of successful `l.Join` calls among recorded log-layer events. -/
def logJoinOkCount : List LogEvent → Nat
  | [] => 0
  | .joinCall _ none :: es => logJoinOkCount es + 1
  | _ :: es => logJoinOkCount es

/-- Number of `n.Initialize` calls among recorded data-layer events. -/
def dataInitCount : List DataEvent → Nat
  | [] => 0
  | .initCall _ _ :: es => dataInitCount es + 1
  | .joinCall _ _ :: es => dataInitCount es

/-- Number of successful `n.Join` calls among recorded data-layer events. -/
def dataJoinOkCount : List DataEvent → Nat
  | [] => 0
  | .joinCall _ none :: es => dataJoinOkCount es + 1
  | _ :: es => dataJoinOkCount es

lemma joinLog_counts (join : URL → Option LogJoinErr) :
    ∀ seeds, logInitCount (joinLog join seeds).1 = 0 ∧
      logJoinOkCount (joinLog join seeds).1 ≤ 1
  | [] => by simp [joinLog, logInitCount, logJoinOkCount]
  | u :: us => by
    have ih := joinLog_counts join us
    match hj : join u with
    | none => simp [joinLog, hj, logInitCount, logJoinOkCount]
    | some .errInitialized => simp [joinLog, hj, logInitCount, logJoinOkCount]
    | some (.other m) =>
      simp [joinLog, hj, logInitCount, logJoinOkCount]
      exact ih

lemma initializeServer_counts (u : URL) (dinit : URL → Option String) :
    dataInitCount (initializeServer u dinit).1 = 1 ∧
      dataJoinOkCount (initializeServer u dinit).1 = 0 := by
  match hd : dinit u with
  | none => simp [initializeServer, hd, dataInitCount, dataJoinOkCount]
  | some m => simp [initializeServer, hd, dataInitCount, dataJoinOkCount]

lemma serverJoinLoop_counts (u : URL) (join : URL → Option DataJoinErr)
    (dinit : URL → Option String) :
    ∀ joinURLs, dataInitCount (serverJoinLoop u join dinit joinURLs).1 +
      dataJoinOkCount (serverJoinLoop u join dinit joinURLs).1 ≤ 1
  | [] => by simp [serverJoinLoop, dataInitCount, dataJoinOkCount]
  | p :: rest => by
    have ih := serverJoinLoop_counts u join dinit rest
    match hj : join p with
    | none => simp [serverJoinLoop, hj, dataInitCount, dataJoinOkCount]
    | some .errDataNodeNotFound =>
      have hi := initializeServer_counts u dinit
      simp [serverJoinLoop, hj, dataInitCount, dataJoinOkCount, hi.1, hi.2]
    | some (.other m) =>
      simp [serverJoinLoop, hj, dataInitCount, dataJoinOkCount]
      exact ih

lemma joinOrInitializeServer_counts (u : URL) (join : URL → Option DataJoinErr)
    (dinit : URL → Option String) (joinURLs : List URL) :
    dataInitCount (joinOrInitializeServer u join dinit joinURLs).1 +
      dataJoinOkCount (joinOrInitializeServer u join dinit joinURLs).1 ≤ 1 := by
  have hl := serverJoinLoop_counts u join dinit joinURLs
  match hres : serverJoinLoop u join dinit joinURLs with
  | (es, some out) =>
    rw [hres] at hl
    simp [joinOrInitializeServer, hres]
    exact hl
  | (es, none) =>
    rw [hres] at hl
    match hlen : joinURLs.length with
    | 0 =>
      have hi := initializeServer_counts u dinit
      simp [joinOrInitializeServer, hres, hlen, hi.1, hi.2]
    | n + 1 =>
      simp [joinOrInitializeServer, hres, hlen]
      exact hl

/-- C7. Per layer and per process lifetime, at most one membership
operation completes: the count of initialize calls plus the count of
successful join calls is at most one, for every oracle behaviour.
Whether any membership operation is attempted at all is decided once,
from the persisted value observed at open time: a non-zero log index (log
layer) or a non-zero assigned identity (data layer) produces no join and
no initialize call whatever the seed lists; for the log layer, index 0
with no seeds performs exactly the one initialize call, and index 0 with
seeds performs join calls only. -/
theorem at_most_one_membership_op (index : Nat) (seeds : List URL)
    (join : URL → Option LogJoinErr) (initRes : Option String)
    (id : Nat) (u : URL) (djoin : URL → Option DataJoinErr)
    (dinit : URL → Option String) (joinURLs : List URL) :
    (logInitCount (openBrokerJoin index seeds join initRes).1 +
      logJoinOkCount (openBrokerJoin index seeds join initRes).1 ≤ 1) ∧
    (index ≠ 0 → (openBrokerJoin index seeds join initRes).1 = []) ∧
    (index = 0 → seeds = [] →
      (openBrokerJoin index seeds join initRes).1 = [LogEvent.initCall initRes]) ∧
    (index = 0 → seeds ≠ [] →
      logInitCount (openBrokerJoin index seeds join initRes).1 = 0) ∧
    (dataInitCount (openServerJoin id u djoin dinit joinURLs).1 +
      dataJoinOkCount (openServerJoin id u djoin dinit joinURLs).1 ≤ 1) ∧
    (id ≠ 0 → (openServerJoin id u djoin dinit joinURLs).1 = []) := by
  refine ⟨?_, ?_, ?_, ?_, ?_, ?_⟩
  · match hi : index with
    | 0 =>
      match hs : seeds with
      | [] =>
        match initRes with
        | none => simp [openBrokerJoin, logInitCount, logJoinOkCount]
        | some m => simp [openBrokerJoin, logInitCount, logJoinOkCount]
      | v :: vs =>
        have hc := joinLog_counts join (v :: vs)
        simp [openBrokerJoin, hc.1]
        exact hc.2
    | n + 1 => simp [openBrokerJoin, logInitCount, logJoinOkCount]
  · intro h
    simp [openBrokerJoin, h]
  · intro h1 h2
    subst h1; subst h2
    match initRes with
    | none => simp [openBrokerJoin]
    | some m => simp [openBrokerJoin]
  · intro h1 h2
    subst h1
    have hlen : seeds.length > 0 := List.length_pos.mpr h2
    simp [openBrokerJoin, hlen, (joinLog_counts join seeds).1]
  · match hid : id with
    | 0 =>
      simp [openServerJoin]
      exact joinOrInitializeServer_counts u djoin dinit joinURLs
    | n + 1 => simp [openServerJoin, dataInitCount, dataJoinOkCount]
  · intro h
    simp [openServerJoin, h]

/-- Witness for C7 at concrete inputs: log layer at index 0 with one
succeeding seed, data layer at identity 2 ignoring its seeds. -/
theorem at_most_one_membership_op_witness :
    (logInitCount (openBrokerJoin 0 ["a"] (fun _ => none) none).1 +
      logJoinOkCount (openBrokerJoin 0 ["a"] (fun _ => none) none).1 ≤ 1) ∧
    (2 : Nat) ≠ 0 ∧
    (openServerJoin 2 "http://self:1" (fun _ => none) (fun _ => none) ["a"]).1 = [] :=
  ⟨(at_most_one_membership_op 0 ["a"] (fun _ => none) none 2 "http://self:1"
      (fun _ => none) (fun _ => none) ["a"]).1,
    by decide,
    (at_most_one_membership_op 0 ["a"] (fun _ => none) none 2 "http://self:1"
      (fun _ => none) (fun _ => none) ["a"]).2.2.2.2.2 (by decide)⟩

/-! ## C8: `ClusterURL` combines hostname with the bound port -/

/-- C8. `ClusterURL` returns an http URL whose host joins the node's
fixed hostname with the port taken from the cluster listener's resolved
bound address; a parse failure of the bound address panics (fatal, not
retried); and the result depends only on the hostname and the bound
address — the configured bind address plays no role, so an
ephemeral-port configuration resolves to the OS-assigned port. -/
theorem clusterURL_uses_bound_port (s : NodeNet) :
    (∀ bh p, splitHostPort s.boundAddr = .ok (bh, p) →
      clusterURL s = .ok ⟨"http", joinHostPort s.hostname p⟩) ∧
    (∀ e, splitHostPort s.boundAddr = .error e → clusterURL s = .panicked e) ∧
    (∀ t : NodeNet, t.hostname = s.hostname → t.boundAddr = s.boundAddr →
      clusterURL t = clusterURL s) := by
  refine ⟨?_, ?_, ?_⟩
  · intro bh p h
    simp [clusterURL, h]
  · intro e h
    simp [clusterURL, h]
  · intro t h1 h2
    simp [clusterURL, h1, h2]

/-- Witness for C8: a node configured with the ephemeral bind address
`:0` whose listener resolved to port 54321 advertises
`http://myhost:54321`; an unparseable bound address panics. -/
theorem clusterURL_uses_bound_port_witness :
    (splitHostPort "0.0.0.0:54321" = .ok ("0.0.0.0", "54321") ∧
      clusterURL ⟨"myhost", ":0", "0.0.0.0:54321"⟩ =
        .ok ⟨"http", joinHostPort "myhost" "54321"⟩) ∧
    (splitHostPort "nocolon" = .error "address nocolon: missing port in address" ∧
      clusterURL ⟨"myhost", ":0", "nocolon"⟩ =
        .panicked "address nocolon: missing port in address") :=
  ⟨⟨rfl, (clusterURL_uses_bound_port ⟨"myhost", ":0", "0.0.0.0:54321"⟩).1
      "0.0.0.0" "54321" rfl⟩,
    ⟨rfl, (clusterURL_uses_bound_port ⟨"myhost", ":0", "nocolon"⟩).2.1
      "address nocolon: missing port in address" rfl⟩⟩

end InfluxdNode
